import Mathlib

/-!
Verification of the acent devp2p protocol test harness
(`cmd/devp2p/internal/acetest/suite.go`).

The Go suite drives scripted protocol exchanges against a target node.
We embed the suite's data model (blocks, chains, protocol messages),
its scenario classification logic (which received messages make a
scenario pass or fail), and its chain bookkeeping, and prove the
spec's testable properties about them.

Blocks, hashes and difficulties are opaque values in the Go code; we
model hashes and opaque payloads as `Nat` and byte buffers as
`List Nat`.  Components of the repository whose source is not in the
sample (the `Chain` methods `Shorten`/`TD`/`ForkID`, the payload
forgers, and the `Conn` status-exchange builder) are modelled from the
specification; each such definition carries a doc comment saying so.
-/

namespace AceTest

/-- Block header: the block number plus an opaque remainder.  The Go
suite only ever reads a header's number and compares whole headers
structurally. -/
structure Header where
  number : Nat
  extra : Nat
  deriving DecidableEq

/-- Block: opaque to the suite apart from its header, body, hash and
difficulty. -/
structure Block where
  header : Header
  body : Nat
  hash : Nat
  difficulty : Nat
  deriving DecidableEq

/-- Accessor `Block.Number()` of the Go code: reads the header's number. -/
def Block.number (b : Block) : Nat := b.header.number

/-- Chain configuration: network/chain identifier and the fork
block-number checkpoints of the chain's fork rules. -/
structure ChainConfig where
  chainID : Nat
  forkCheckpoints : List Nat
  deriving DecidableEq

/-- The suite's chain model: an ordered block sequence (index 0 =
genesis) plus its configuration. -/
structure Chain where
  blocks : List Block
  chainConfig : ChainConfig
  deriving DecidableEq

/-- Errors of the chain-model operations. -/
inductive ChainError where
  | rangeError
  | loadError
  deriving DecidableEq

deriving instance DecidableEq for Except

/-- Length query `Chain.Len()`. -/
def Chain.Len (c : Chain) : Nat := c.blocks.length

/-- Head query `Chain.Head()`: the last block. -/
def Chain.Head (c : Chain) : Option Block := c.blocks.getLast?

/-- Modelled from the spec: `shorten(k)` fails with `RangeError` if
`k > length` or `k < 1`; otherwise returns a new model whose blocks
`0..k-1` are shared with the source (the implementation of the Go
`Chain.Shorten` is outside the source sample). -/
def Chain.Shorten (c : Chain) (k : Nat) : Except ChainError Chain :=
  if k < 1 ∨ c.blocks.length < k then .error .rangeError
  else .ok { blocks := c.blocks.take k, chainConfig := c.chainConfig }

/-- Modelled from the spec: `totalDifficulty(n)` fails with
`RangeError` if `n > length`; otherwise it is the pure summation of
the per-block difficulties of the first `n` blocks, written as the
accumulating loop a Go implementation would use (the Go `Chain.TD` is
outside the source sample). -/
def Chain.TD (c : Chain) (n : Nat) : Except ChainError Nat :=
  if c.blocks.length < n then .error .rangeError
  else .ok ((c.blocks.take n).foldl (fun acc b => acc + b.difficulty) 0)

/-- Modelled from the spec: the fork identifier is a deterministic
pure function of the genesis hash and the chain configuration's fork
block-number checkpoints (the fork-ID collaborator is outside the
source sample).  Any injective-enough concrete combination serves. -/
def forkIdOf (genesisHash : Nat) (checkpoints : List Nat) : Nat :=
  checkpoints.foldl (fun acc n => acc * 1000003 + n + 1) (genesisHash + 1)

/-- Hash of the genesis block (`blocks[0].Hash()` in the Go code),
defaulting to 0 on an empty chain. -/
def Chain.genesisHash (c : Chain) : Nat :=
  ((c.blocks.head?).map Block.hash).getD 0

/-- Fork identifier `Chain.ForkID()`, via the spec-modelled fork-ID derivation. -/
def Chain.ForkID (c : Chain) : Nat :=
  forkIdOf c.genesisHash c.chainConfig.forkCheckpoints

/-- Modelled from the spec: `largeBuffer(mult)` produces an oversized
byte buffer (the payload forger is outside the source sample). -/
def largeBuffer (mult : Nat) : List Nat := List.replicate (mult * 1024) 0

/-- Modelled from the spec: `largeString(mult)` produces an oversized
string used as a capability name (outside the source sample). -/
def largeString (mult : Nat) : String := String.mk (List.replicate (mult * 1024) 'x')

/-- Modelled from the spec: `largeNumber(mult)` produces an integer
exceeding any realistic chain state (outside the source sample). -/
def largeNumber (mult : Nat) : Nat := 2 ^ (mult * 256)

/-- A `{protocol-name, version}` capability pair. -/
structure Cap where
  name : String
  version : Nat
  deriving DecidableEq

/-- The devp2p `Hello` message as the suite constructs it. -/
structure Hello where
  version : Nat
  caps : List Cap
  id : List Nat
  deriving DecidableEq

/-- The eth `Status` message as the suite constructs and reads it. -/
structure Status where
  protocolVersion : Nat
  networkID : Nat
  td : Nat
  head : Nat
  genesis : Nat
  forkID : Nat
  deriving DecidableEq

/-- Payload of a `NewBlock` announcement: a block and a total
difficulty. -/
structure NewBlockMsg where
  block : Block
  td : Nat
  deriving DecidableEq

/-- One entry of a `NewBlockHashes` announcement. -/
structure BlockNumHash where
  hash : Nat
  number : Nat
  deriving DecidableEq

/-- Origin of a `GetBlockHeaders` request: a block hash or number. -/
inductive HashOrNumber where
  | hash (h : Nat)
  | number (n : Nat)
  deriving DecidableEq

/-- The `GetBlockHeaders` request payload. -/
structure GetBlockHeadersReq where
  origin : HashOrNumber
  amount : Nat
  skip : Nat
  reverse : Bool
  deriving DecidableEq

/-- The closed set of protocol messages the suite's type-switches
dispatch over.  `error` carries the error's string rendering (an `Error`
wraps a transport/decoding error; the suite inspects its text). -/
inductive Message where
  | hello (h : Hello)
  | status (s : Status)
  | getBlockHeaders (req : GetBlockHeadersReq)
  | blockHeaders (hs : List Header)
  | getBlockBodies (hashes : List Nat)
  | blockBodies (bodies : List Nat)
  | newBlock (nb : NewBlockMsg)
  | newBlockHashes (l : List BlockNumHash)
  | transactions (txs : List Nat)
  | disconnect (reason : Nat)
  | error (e : String)
  deriving DecidableEq

/-! ## Scenario logic of `suite.go` -/

/-- The two chain views a `Suite` owns: the working (truncated) chain
`chain` and the full reference chain `fullChain`. -/
structure SuiteState where
  chain : Chain
  fullChain : Chain
  deriving DecidableEq

/-- Construction: `NewSuite` builds the working chain by truncating the loaded full
chain: `chain.Shorten(1000)` (suite.go line 64). -/
def NewSuiteChains (full : Chain) : Except ChainError SuiteState :=
  (full.Shorten 1000).map (fun w => { chain := w, fullChain := full })

/-- The five forged Hello payloads of `TestMaliciousHandshake`
(suite.go lines 278-317), given the connection's 64-byte public key
`pub0`. -/
def maliciousHandshakes (pub0 : List Nat) : List Hello :=
  [ { version := 5, caps := [⟨largeString 2, 64⟩], id := pub0 },
    { version := 5, caps := [⟨"eth", 64⟩, ⟨"eth", 65⟩], id := pub0 ++ [0] },
    { version := 5, caps := [⟨"eth", 64⟩, ⟨"eth", 65⟩], id := pub0 ++ pub0 },
    { version := 5, caps := [⟨"eth", 64⟩, ⟨"eth", 65⟩], id := largeBuffer 2 },
    { version := 5, caps := [⟨largeString 2, 64⟩], id := largeBuffer 2 } ]

/-- One iteration of the read loop of `TestMaliciousHandshake`
(suite.go lines 327-337): a received message is acceptable when it is
a Disconnect, an Error, or a (concurrently sent, ignored) Hello; any
other message type is fatal. -/
def maliciousHandshakeSlotOk : Message → Bool
  | .disconnect _ => true
  | .error _ => true
  | .hello _ => true
  | _ => false

/-- The whole read loop of `TestMaliciousHandshake` runs exactly two
iterations; the scenario passes a forged-Hello round iff both received
messages are acceptable. -/
def maliciousHandshakeCheck (m1 m2 : Message) : Bool :=
  maliciousHandshakeSlotOk m1 && maliciousHandshakeSlotOk m2

/-- Is the message a Disconnect or a transport-level Error? -/
def isDisconnectOrError : Message → Bool
  | .disconnect _ => true
  | .error _ => true
  | _ => false

/-- Is the message a Status? -/
def isStatus : Message → Bool
  | .status _ => true
  | _ => false

/-- The forged Status of `TestMaliciousStatus` (suite.go lines
162-169): built from the working chain but with `TD := largeNumber 2`.
`none` when the chain is empty (the Go code would index out of
range). -/
def maliciousStatus (c : Chain) (negotiatedVersion : Nat) : Option Status :=
  match c.blocks.getLast?, c.blocks.head? with
  | some hd, some gen =>
      some { protocolVersion := negotiatedVersion
             networkID := c.chainConfig.chainID
             td := largeNumber 2
             head := hd.hash
             genesis := gen.hash
             forkID := c.ForkID }
  | _, _ => none

/-- The acceptance criterion of `TestMaliciousStatus` (suite.go lines
170-185): the status exchange must return a Status (any other reply is
fatal), and the single message read after it must be a Disconnect or
an Error. -/
def maliciousStatusCheck (statusReply afterStatus : Message) : Bool :=
  isStatus statusReply && isDisconnectOrError afterStatus

/-- Modelled from the spec: `statusExchange` with no override builds
the Status from the chain model — network id, genesis hash, head hash,
total difficulty, fork id (the Go `Conn.statusExchange` is outside the
source sample).  `none` when the chain is empty or TD fails. -/
def statusFromChain (c : Chain) (negotiatedVersion : Nat) : Option Status :=
  match c.blocks.getLast?, c.blocks.head?, c.TD c.blocks.length with
  | some hd, some gen, .ok td =>
      some { protocolVersion := negotiatedVersion
             networkID := c.chainConfig.chainID
             td := td
             head := hd.hash
             genesis := gen.hash
             forkID := c.ForkID }
  | _, _, _ => none

/-- Resolve a `GetBlockHeaders` origin to a block number: a numeric
origin is itself; a hash origin is looked up in the chain. -/
def resolveOrigin (c : Chain) : HashOrNumber → Option Nat
  | .number n => some n
  | .hash h => (c.blocks.find? (fun b => decide (b.hash = h))).map Block.number

/-- Modelled from the spec: a compliant peer's response to
`GetBlockHeaders` — starting from the resolved origin, return up to
`amount` headers whose block numbers step by `skip + 1`, descending
when `reverse` is set (the responder lives in the repository's
`readAndServe`, outside the source sample). -/
def headersAnswer (c : Chain) (req : GetBlockHeadersReq) : List Header :=
  match resolveOrigin c req.origin with
  | none => []
  | some start =>
      (List.range req.amount).filterMap (fun i =>
        let n := if req.reverse then start - i * (req.skip + 1)
                 else start + i * (req.skip + 1)
        (c.blocks.find? (fun b => decide (b.header.number = n))).map Block.header)

/-- The request `TestGetBlockHeaders` issues (suite.go lines 199-206):
origin = hash of `blocks[1]`, amount 2, skip 1, reverse false.  `none`
when the chain has fewer than two blocks. -/
def getBlockHeadersRequest (c : Chain) : Option GetBlockHeadersReq :=
  (c.blocks.get? 1).map (fun b =>
    { origin := .hash b.hash, amount := 2, skip := 1, reverse := false })

/-- The assertion loop of `TestGetBlockHeaders` (suite.go lines
213-219): every returned header must be structurally equal to the
chain's header at that header's block number. -/
def headersCheck (c : Chain) (headers : List Header) : Bool :=
  headers.all (fun h =>
    match c.blocks.get? h.number with
    | some b => decide (b.header = h)
    | none => false)

/-- The announcement `TestBroadcast` builds (suite.go lines 256-260):
the full chain's block one past the working head, with the full
chain's cumulative difficulty through that block. -/
def broadcastAnnouncement (s : SuiteState) : Option NewBlockMsg :=
  match s.fullChain.blocks.get? s.chain.blocks.length,
        s.fullChain.TD (s.chain.blocks.length + 1) with
  | some b, .ok td => some { block := b, td := td }
  | _, _ => none

/-- The acceptance criterion of `waitAnnounce` (suite.go lines
433-455): the receiver's message must be a NewBlock whose header and
TD equal the announcement's, or a NewBlockHashes whose first entry's
hash equals the announced block's hash; anything else fails.  An empty
NewBlockHashes list is a failure (the Go code would panic indexing
`message[0]`). -/
def waitAnnounceOk (ann : NewBlockMsg) : Message → Bool
  | .newBlock nb =>
      decide (nb.block.header = ann.block.header) && decide (nb.td = ann.td)
  | .newBlockHashes l =>
      match l.head? with
      | some e => decide (e.hash = ann.block.hash)
      | none => false
  | _ => false

/-- The chain update after a successful propagation scenario
(suite.go line 263 and line 388): append the full chain's next block
to the working chain; the full chain is untouched. -/
def broadcastAppend (s : SuiteState) : Option SuiteState :=
  (s.fullChain.blocks.get? s.chain.blocks.length).map (fun b =>
    { s with chain := { s.chain with blocks := s.chain.blocks ++ [b] } })

/-- The stale announcement `oldAnnounce` builds (suite.go lines
400-403): the working chain's middle block, with that block's own
(non-cumulative, non-superior) difficulty as TD. -/
def oldAnnouncement (c : Chain) : Option NewBlockMsg :=
  (c.blocks.get? (c.blocks.length / 2)).map (fun b =>
    { block := b, td := b.difficulty })

/-- Does `pat` occur at the head of `s`? (helper for the substring
check below). -/
def leadMatch : List Char → List Char → Bool
  | [], _ => true
  | _ :: _, [] => false
  | a :: as, b :: bs => decide (a = b) && leadMatch as bs

/-- Go's `strings.Contains`: does `pat` occur anywhere in `s`? -/
def stringContains (s pat : String) : Bool :=
  (List.range (s.length + 1)).any (fun i => leadMatch pat.data (s.data.drop i))

/-- The receiver-side classification of `oldAnnounce` (suite.go lines
409-422): receiving a NewBlock or NewBlockHashes is a failure; an
Error whose text contains "timeout" (the read deadline elapsing with
no propagation) is the scenario's success; any other message is a
failure. -/
def oldAnnounceOk : Message → Bool
  | .error e => stringContains e "timeout"
  | _ => false

/-- The working chains reachable between scenarios: the initial one is
produced by `Shorten` at suite construction (`NewSuite` uses
`Shorten 1000`; we allow any cut so the invariant covers it), and each
successful propagation scenario appends the full chain's next block
via `broadcastAppend`. -/
inductive WorkingReachable (full : Chain) : Chain → Prop
  | init (k : Nat) (w : Chain) : full.Shorten k = .ok w → WorkingReachable full w
  | step (w : Chain) (s' : SuiteState) : WorkingReachable full w →
      broadcastAppend { chain := w, fullChain := full } = some s' →
      WorkingReachable full s'.chain

/-! ## Concrete data for evaluation -/

/-- A concrete header for concrete chains. -/
def hdrW (n : Nat) : Header := ⟨n, 0⟩

/-- A concrete block: number `n`, distinct hash, difficulty `n + 1`. -/
def blkW (n : Nat) : Block := ⟨hdrW n, 0, 100 + n, n + 1⟩

/-- A concrete chain configuration. -/
def cfgW : ChainConfig := ⟨7, [10, 20]⟩

/-- A concrete four-block reference chain. -/
def chainW : Chain := ⟨[blkW 0, blkW 1, blkW 2, blkW 3], cfgW⟩

/-- A concrete two-block full chain. -/
def fullW : Chain := ⟨[blkW 0, blkW 1], cfgW⟩

/-- The one-block truncation of `fullW`. -/
def shortW : Chain := ⟨[blkW 0], cfgW⟩

/-- A concrete suite state: working chain `shortW`, full chain `fullW`. -/
def suiteW : SuiteState := ⟨shortW, fullW⟩

/-- A benign Hello, as the peer sends concurrently during the
malicious-handshake scenario. -/
def benignHello : Hello := ⟨5, [⟨"eth", 64⟩, ⟨"eth", 65⟩], List.replicate 64 1⟩

/-- A concrete 64-byte public-key buffer. -/
def pub0W : List Nat := List.replicate 64 2

/-- The concrete forged status built from `shortW`. -/
def stW : Status :=
  { protocolVersion := 64, networkID := 7, td := largeNumber 2,
    head := 100, genesis := 100, forkID := shortW.ForkID }

/-! ## Helper lemmas -/

/-- The Go-style accumulating difficulty loop computes the sum of the
per-block difficulties. -/
theorem foldl_difficulty (l : List Block) (a : Nat) :
    l.foldl (fun acc b => acc + b.difficulty) a = a + (l.map Block.difficulty).sum := by
  induction l generalizing a with
  | nil => simp
  | cons b t ih => simp [ih]; omega

/-- In a chain whose block hashes are pairwise distinct, looking a
block up by its own hash finds exactly that block. -/
theorem find?_hash_of_nodup (l : List Block) (j : Nat) (bj : Block)
    (hj : l.get? j = some bj) (hnd : (l.map Block.hash).Nodup) :
    l.find? (fun b => decide (b.hash = bj.hash)) = some bj := by
  induction l generalizing j with
  | nil => simp at hj
  | cons a t ih =>
    rw [List.map_cons, List.nodup_cons] at hnd
    cases j with
    | zero =>
      simp only [List.get?] at hj
      cases hj
      simp [List.find?_cons]
    | succ j' =>
      simp only [List.get?] at hj
      have hmem : bj.hash ∈ t.map Block.hash :=
        List.mem_map_of_mem Block.hash (List.get?_mem hj)
      have hne : a.hash ≠ bj.hash := fun he => hnd.1 (he ▸ hmem)
      rw [List.find?_cons]
      have hd : (decide (a.hash = bj.hash)) = false := by simp [hne]
      rw [hd]
      exact ih j' hj hnd.2

/-- In a chain whose block at index `i` carries number `k + i`,
looking a block up by number `m = k + n` finds the block at index
`n`. -/
theorem find?_number_aux (l : List Block) (k n m : Nat) (bn : Block)
    (hm : m = k + n)
    (hnum : ∀ i, i < l.length → ((l.get? i).map (fun b => b.header.number)) = some (k + i))
    (hn : l.get? n = some bn) :
    l.find? (fun b => decide (b.header.number = m)) = some bn := by
  induction l generalizing k n with
  | nil => simp at hn
  | cons a t ih =>
    have ha : a.header.number = k := by
      have h0 := hnum 0 (by simp)
      simpa using h0
    cases n with
    | zero =>
      simp only [List.get?] at hn
      cases hn
      rw [List.find?_cons]
      have hd : (decide (bn.header.number = m)) = true := by
        simp [ha, hm]
      rw [hd]
    | succ n' =>
      simp only [List.get?] at hn
      have hne : a.header.number ≠ m := by omega
      rw [List.find?_cons]
      have hd : (decide (a.header.number = m)) = false := by simp [hne]
      rw [hd]
      refine ih (k + 1) n' (by omega) ?_ hn
      intro i hi
      have := hnum (i + 1) (by simpa using Nat.succ_lt_succ hi)
      simpa [Nat.add_assoc, Nat.add_comm 1 i] using this

/-- A chain numbered contiguously from 0 assigns number `i` to the
block found at index `i`. -/
theorem numbered_get (c : Chain)
    (hnum : ∀ i, i < c.blocks.length → ((c.blocks.get? i).map (fun b => b.header.number)) = some i)
    {i : Nat} {b : Block} (h : c.blocks.get? i = some b) : b.header.number = i := by
  obtain ⟨hi, -⟩ := List.get?_eq_some.mp h
  have := hnum i hi
  rw [h] at this
  simpa using this

/-- Inversion of a successful `Shorten`. -/
theorem Shorten_ok_inv (c : Chain) (k : Nat) (w : Chain)
    (h : c.Shorten k = .ok w) :
    1 ≤ k ∧ k ≤ c.blocks.length ∧
      w = { blocks := c.blocks.take k, chainConfig := c.chainConfig } := by
  unfold Chain.Shorten at h
  split at h
  · cases h
  · next hcond =>
    push_neg at hcond
    cases h
    exact ⟨by omega, by omega, rfl⟩

/-- Taking at least one block preserves the head. -/
theorem head?_take_of_pos (l : List Block) (k : Nat) (hk : 1 ≤ k) :
    (l.take k).head? = l.head? := by
  cases l with
  | nil => simp
  | cons a t =>
    cases k with
    | zero => omega
    | succ k' => simp

/-! ## Claim theorems -/

/-- Claim C7: for every chain model and every `k` in `[1, len]`,
`Shorten k` returns a model whose blocks below `k` are identical (by
identity, hence by hash) to the source's; for `k > len` or `k < 1` it
fails with `RangeError`. -/
theorem shorten_spec (c : Chain) (k : Nat) :
    (1 ≤ k → k ≤ c.blocks.length →
      ∃ w, c.Shorten k = .ok w ∧ w.blocks.length = k ∧
        (∀ i, i < k → w.blocks.get? i = c.blocks.get? i) ∧
        (∀ i, i < k →
          (w.blocks.get? i).map Block.hash = (c.blocks.get? i).map Block.hash)) ∧
    (c.blocks.length < k ∨ k < 1 → c.Shorten k = .error .rangeError) := by
  constructor
  · intro h1 hk
    refine ⟨{ blocks := c.blocks.take k, chainConfig := c.chainConfig }, ?_, ?_, ?_, ?_⟩
    · unfold Chain.Shorten
      rw [if_neg (by omega)]
    · simpa using hk
    · intro i hi
      exact List.get?_take hi
    · intro i hi
      rw [List.get?_take hi]
  · intro h
    unfold Chain.Shorten
    rw [if_pos (by omega)]

/-- Witness for C7: `Shorten` evaluated on a concrete four-block chain
at `k = 2` (in range) and `k = 9` (out of range). -/
theorem shorten_spec_witness :
    (∃ w, chainW.Shorten 2 = .ok w ∧ w.blocks.length = 2 ∧
      (∀ i, i < 2 → w.blocks.get? i = chainW.blocks.get? i) ∧
      (∀ i, i < 2 →
        (w.blocks.get? i).map Block.hash = (chainW.blocks.get? i).map Block.hash)) ∧
    chainW.Shorten 9 = .error .rangeError :=
  ⟨(shorten_spec chainW 2).1 (by decide) (by decide),
   (shorten_spec chainW 9).2 (by decide)⟩

/-- Claim C8: `TD` is monotonically non-decreasing over in-range
arguments, equals the sum of the per-block difficulties of the first
`n` blocks, and fails with `RangeError` for `n > length`. -/
theorem td_monotone_sum (c : Chain) (n m : Nat) :
    (n ≤ m → m ≤ c.blocks.length →
      ∃ a b, c.TD n = .ok a ∧ c.TD m = .ok b ∧ a ≤ b ∧
        a = ((c.blocks.take n).map Block.difficulty).sum ∧
        b = ((c.blocks.take m).map Block.difficulty).sum) ∧
    (c.blocks.length < n → c.TD n = .error .rangeError) := by
  constructor
  · intro hnm hm
    have hTD : ∀ j, j ≤ c.blocks.length →
        c.TD j = .ok (((c.blocks.take j).map Block.difficulty).sum) := by
      intro j hj
      unfold Chain.TD
      rw [if_neg (by omega), foldl_difficulty]
      simp
    refine ⟨_, _, hTD n (by omega), hTD m hm, ?_, rfl, rfl⟩
    have htt : c.blocks.take n = (c.blocks.take m).take n := by
      rw [List.take_take]
      congr 1
      omega
    rw [htt]
    calc (((c.blocks.take m).take n).map Block.difficulty).sum
        ≤ (((c.blocks.take m).take n).map Block.difficulty).sum
            + (((c.blocks.take m).drop n).map Block.difficulty).sum :=
          Nat.le_add_right _ _
      _ = ((c.blocks.take m).map Block.difficulty).sum := by
          rw [← List.sum_append, ← List.map_append, List.take_append_drop]
  · intro h
    unfold Chain.TD
    rw [if_pos h]

/-- Witness for C8: `TD` evaluated on the concrete four-block chain at
`n = 1, m = 3` (in range) and `n = 7` (out of range). -/
theorem td_monotone_sum_witness :
    (∃ a b, chainW.TD 1 = .ok a ∧ chainW.TD 3 = .ok b ∧ a ≤ b ∧
      a = ((chainW.blocks.take 1).map Block.difficulty).sum ∧
      b = ((chainW.blocks.take 3).map Block.difficulty).sum) ∧
    chainW.TD 7 = .error .rangeError :=
  ⟨(td_monotone_sum chainW 1 3).1 (by decide) (by decide),
   (td_monotone_sum chainW 7 7).2 (by decide)⟩

/-- Claim C4: the stale-announcement scenario announces the working
chain's middle block with its own difficulty; the receiver side
classifies any NewBlock or NewBlockHashes as failure, a timeout Error
as success, and nothing else as success. -/
theorem oldAnnounce_classification (c : Chain) (b : Block)
    (hb : c.blocks.get? (c.blocks.length / 2) = some b) :
    oldAnnouncement c = some { block := b, td := b.difficulty } ∧
    (∀ nb, oldAnnounceOk (.newBlock nb) = false) ∧
    (∀ l, oldAnnounceOk (.newBlockHashes l) = false) ∧
    (∀ e, stringContains e "timeout" = true → oldAnnounceOk (.error e) = true) ∧
    (∀ msg, oldAnnounceOk msg = true →
      ∃ e, msg = .error e ∧ stringContains e "timeout" = true) := by
  refine ⟨by unfold oldAnnouncement; rw [hb]; rfl, fun nb => rfl, fun l => rfl,
         fun e he => he, ?_⟩
  intro msg hmsg
  cases msg with
  | error e => exact ⟨e, rfl, hmsg⟩
  | _ => simp [oldAnnounceOk] at hmsg

/-- Witness for C4: the classification evaluated on the concrete
four-block chain, whose middle block is `blkW 2`, and on a concrete
timeout error. -/
theorem oldAnnounce_classification_witness :
    chainW.blocks.get? (chainW.blocks.length / 2) = some (blkW 2) ∧
    stringContains "i/o timeout" "timeout" = true ∧
    oldAnnouncement chainW = some { block := blkW 2, td := (blkW 2).difficulty } ∧
    oldAnnounceOk (.error "i/o timeout") = true :=
  have h : chainW.blocks.get? (chainW.blocks.length / 2) = some (blkW 2) := by decide
  have ht : stringContains "i/o timeout" "timeout" = true := by decide
  ⟨h, ht, (oldAnnounce_classification chainW (blkW 2) h).1,
   (oldAnnounce_classification chainW (blkW 2) h).2.2.2.1 _ ht⟩

/-- Claim C10: the malicious-status scenario passes exactly when the
peer's immediate reply to the forged Status is itself a Status (an
immediate Disconnect or Error there fails the scenario) and the next
message read is a Disconnect or an Error. -/
theorem maliciousStatus_requires_status_first (m1 m2 : Message) :
    maliciousStatusCheck m1 m2 = true ↔
      ((∃ st, m1 = .status st) ∧
       ((∃ r, m2 = .disconnect r) ∨ (∃ e, m2 = .error e))) := by
  cases m1 <;> cases m2 <;>
    simp [maliciousStatusCheck, isStatus, isDisconnectOrError]

/-- Claim C5: the forged status of the malicious-status scenario
carries the oversized total difficulty, and the scenario accepts only
a Disconnect or a transport Error as the message following the status
exchange — any further protocol message there fails. -/
theorem maliciousStatus_disconnect_required (c : Chain) (v : Nat) (st : Status)
    (hst : maliciousStatus c v = some st) :
    st.td = largeNumber 2 ∧
    (∀ m1 m2, maliciousStatusCheck m1 m2 = true →
      (∃ r, m2 = .disconnect r) ∨ (∃ e, m2 = .error e)) ∧
    (∀ m1 m2, isDisconnectOrError m2 = false → maliciousStatusCheck m1 m2 = false) := by
  refine ⟨?_, ?_, ?_⟩
  · unfold maliciousStatus at hst
    split at hst
    · cases hst
      rfl
    · cases hst
  · intro m1 m2 h
    cases m2 <;> simp [maliciousStatusCheck, isDisconnectOrError] at h ⊢
  · intro m1 m2 h
    simp [maliciousStatusCheck]
    intro _
    exact h

/-- Witness for C5: the forged status evaluated on the concrete
one-block working chain. -/
theorem maliciousStatus_disconnect_required_witness :
    maliciousStatus shortW 64 = some stW ∧ stW.td = largeNumber 2 :=
  have h : maliciousStatus shortW 64 = some stW := by rfl
  ⟨h, (maliciousStatus_disconnect_required shortW 64 stW h).1⟩

/-- Counterexample to claim C1 as stated: the malicious-handshake
read loop accepts a transcript of two benign Hellos containing no
Disconnect and no Error at all, so the scenario does not in fact
require a Disconnect or transport Error within the two received
messages. -/
theorem maliciousHandshake_two_hellos_pass :
    maliciousHandshakeCheck (.hello benignHello) (.hello benignHello) = true ∧
    isDisconnectOrError (.hello benignHello) = false ∧
    isDisconnectOrError (.hello benignHello) = false :=
  ⟨rfl, rfl, rfl⟩

/-- Claim C1 (amended): every forged Hello is boundary-violating (an
oversized capability name or an identity buffer whose length differs
from the 64 bytes of a public key), and after writing one the scenario
reads exactly two messages and passes iff each of them is a
Disconnect, an Error, or a (concurrently sent, ignored) Hello; any
other message type in either slot fails, but no actual Disconnect or
Error is required. -/
theorem maliciousHandshake_check_iff (pub0 : List Nat) (hlen : pub0.length = 64) :
    (∀ h ∈ maliciousHandshakes pub0,
      (∃ cap ∈ h.caps, 1024 ≤ cap.name.length) ∨ h.id.length ≠ 64) ∧
    (∀ m1 m2, maliciousHandshakeCheck m1 m2 = true ↔
      (((∃ r, m1 = .disconnect r) ∨ (∃ e, m1 = .error e) ∨ (∃ hh, m1 = .hello hh)) ∧
       ((∃ r, m2 = .disconnect r) ∨ (∃ e, m2 = .error e) ∨ (∃ hh, m2 = .hello hh)))) := by
  constructor
  · intro h hmem
    have hbig : 1024 ≤ (largeString 2).length := by
      have hl : (largeString 2).length = 2 * 1024 := by
        simp only [largeString]
        rw [String.length]
        exact List.length_replicate _ _
      omega
    simp only [maliciousHandshakes, List.mem_cons, List.not_mem_nil, or_false] at hmem
    rcases hmem with rfl | rfl | rfl | rfl | rfl
    · exact .inl ⟨⟨largeString 2, 64⟩, by simp, hbig⟩
    · refine .inr ?_
      simp [hlen]
    · refine .inr ?_
      simp [hlen]
    · refine .inr ?_
      have hl : (largeBuffer 2).length = 2 * 1024 := by
        simp only [largeBuffer]
        exact List.length_replicate _ _
      simp only [hl]
      omega
    · exact .inl ⟨⟨largeString 2, 64⟩, by simp, hbig⟩
  · intro m1 m2
    cases m1 <;> cases m2 <;>
      simp [maliciousHandshakeCheck, maliciousHandshakeSlotOk]

/-- Witness for C1 (amended): the forged-Hello list evaluated on a
concrete 64-byte key buffer. -/
theorem maliciousHandshake_check_iff_witness :
    pub0W.length = 64 ∧
    ((∀ h ∈ maliciousHandshakes pub0W,
      (∃ cap ∈ h.caps, 1024 ≤ cap.name.length) ∨ h.id.length ≠ 64) ∧
    (∀ m1 m2, maliciousHandshakeCheck m1 m2 = true ↔
      (((∃ r, m1 = .disconnect r) ∨ (∃ e, m1 = .error e) ∨ (∃ hh, m1 = .hello hh)) ∧
       ((∃ r, m2 = .disconnect r) ∨ (∃ e, m2 = .error e) ∨ (∃ hh, m2 = .hello hh))))) :=
  have h : pub0W.length = 64 := by simp [pub0W]
  ⟨h, maliciousHandshake_check_iff pub0W h⟩

/-- Claim C2: on a reference chain numbered contiguously from 0 with
pairwise-distinct block hashes, the suite's GetBlockHeaders request
(origin = hash of block 1, amount 2, skip 1, reverse false) is
answered by exactly the headers of block 1 and block 3 (skip 1 means a
step of 2 between returned numbers), and that answer passes the
suite's per-number header-equality assertion. -/
theorem getBlockHeaders_response_correct (c : Chain) (b1 b3 : Block)
    (hnum : ∀ i, i < c.blocks.length →
      ((c.blocks.get? i).map (fun b => b.header.number)) = some i)
    (hnd : (c.blocks.map Block.hash).Nodup)
    (h1 : c.blocks.get? 1 = some b1)
    (h3 : c.blocks.get? 3 = some b3) :
    getBlockHeadersRequest c =
      some { origin := .hash b1.hash, amount := 2, skip := 1, reverse := false } ∧
    headersAnswer c { origin := .hash b1.hash, amount := 2, skip := 1, reverse := false }
      = [b1.header, b3.header] ∧
    headersCheck c [b1.header, b3.header] = true := by
  have hnum0 : ∀ i, i < c.blocks.length →
      ((c.blocks.get? i).map (fun b => b.header.number)) = some (0 + i) := by
    intro i hi
    simpa using hnum i hi
  have hb1 : b1.header.number = 1 := numbered_get c hnum h1
  have hb3 : b3.header.number = 3 := numbered_get c hnum h3
  have hf1 : c.blocks.find? (fun b => decide (b.hash = b1.hash)) = some b1 :=
    find?_hash_of_nodup c.blocks 1 b1 h1 hnd
  have hn1 : c.blocks.find? (fun b => decide (b.header.number = 1)) = some b1 :=
    find?_number_aux c.blocks 0 1 1 b1 (by omega) hnum0 h1
  have hn3 : c.blocks.find? (fun b => decide (b.header.number = 3)) = some b3 :=
    find?_number_aux c.blocks 0 3 3 b3 (by omega) hnum0 h3
  refine ⟨?_, ?_, ?_⟩
  · unfold getBlockHeadersRequest
    rw [h1]
    rfl
  · unfold headersAnswer resolveOrigin
    dsimp only
    rw [hf1, Option.map_some']
    simp only [Block.number, hb1]
    show (List.range 2).filterMap _ = _
    rw [show List.range 2 = [0, 1] by rfl]
    simp only [List.filterMap_cons, List.filterMap_nil]
    norm_num
    rw [hn1, hn3]
    simp
  · unfold headersCheck
    simp only [List.all_cons, List.all_nil, hb1, hb3, h1, h3]
    simp

/-- Witness for C2: the request, answer and assertion evaluated on the
concrete four-block chain. -/
theorem getBlockHeaders_response_correct_witness :
    (∀ i, i < chainW.blocks.length →
      ((chainW.blocks.get? i).map (fun b => b.header.number)) = some i) ∧
    (chainW.blocks.map Block.hash).Nodup ∧
    chainW.blocks.get? 1 = some (blkW 1) ∧
    chainW.blocks.get? 3 = some (blkW 3) ∧
    (getBlockHeadersRequest chainW =
      some { origin := .hash (blkW 1).hash, amount := 2, skip := 1, reverse := false } ∧
    headersAnswer chainW
      { origin := .hash (blkW 1).hash, amount := 2, skip := 1, reverse := false }
      = [(blkW 1).header, (blkW 3).header] ∧
    headersCheck chainW [(blkW 1).header, (blkW 3).header] = true) :=
  have ha : ∀ i, i < chainW.blocks.length →
      ((chainW.blocks.get? i).map (fun b => b.header.number)) = some i := by decide
  have hb : (chainW.blocks.map Block.hash).Nodup := by decide
  have hc : chainW.blocks.get? 1 = some (blkW 1) := by decide
  have hd : chainW.blocks.get? 3 = some (blkW 3) := by decide
  ⟨ha, hb, hc, hd, getBlockHeaders_response_correct chainW (blkW 1) (blkW 3) ha hb hc hd⟩

/-- Claim C3: the broadcast scenario announces the full chain's block
one past the working head with the full chain's cumulative difficulty
through it; the receiver's acceptance criterion holds exactly for a
NewBlock with matching header and TD or a NewBlockHashes whose first
entry's hash matches; and on success the announced block is appended
to the working chain while the full chain is untouched. -/
theorem broadcast_announce_correct (s : SuiteState) (b : Block) (td : Nat)
    (hb : s.fullChain.blocks.get? s.chain.blocks.length = some b)
    (htd : s.fullChain.TD (s.chain.blocks.length + 1) = .ok td) :
    broadcastAnnouncement s = some { block := b, td := td } ∧
    (∀ msg, waitAnnounceOk { block := b, td := td } msg = true ↔
      ((∃ nb, msg = .newBlock nb ∧ nb.block.header = b.header ∧ nb.td = td) ∨
       (∃ l e, msg = .newBlockHashes l ∧ l.head? = some e ∧ e.hash = b.hash))) ∧
    (∃ s', broadcastAppend s = some s' ∧
      s'.chain.blocks = s.chain.blocks ++ [b] ∧ s'.fullChain = s.fullChain) := by
  refine ⟨?_, ?_, ?_⟩
  · unfold broadcastAnnouncement
    rw [hb, htd]
  · intro msg
    cases msg with
    | newBlock nb =>
      simp [waitAnnounceOk]
    | newBlockHashes l =>
      cases l with
      | nil => simp [waitAnnounceOk]
      | cons e rest => simp [waitAnnounceOk]
    | _ => simp [waitAnnounceOk]
  · refine ⟨{ s with chain := { s.chain with blocks := s.chain.blocks ++ [b] } },
           ?_, rfl, rfl⟩
    unfold broadcastAppend
    rw [hb, Option.map_some']

/-- Witness for C3: the broadcast bookkeeping evaluated on the
concrete suite state (working chain one block, full chain two). -/
theorem broadcast_announce_correct_witness :
    suiteW.fullChain.blocks.get? suiteW.chain.blocks.length = some (blkW 1) ∧
    suiteW.fullChain.TD (suiteW.chain.blocks.length + 1) = .ok 3 ∧
    (broadcastAnnouncement suiteW = some { block := blkW 1, td := 3 } ∧
    (∀ msg, waitAnnounceOk { block := blkW 1, td := 3 } msg = true ↔
      ((∃ nb, msg = .newBlock nb ∧ nb.block.header = (blkW 1).header ∧ nb.td = 3) ∨
       (∃ l e, msg = .newBlockHashes l ∧ l.head? = some e ∧ e.hash = (blkW 1).hash))) ∧
    (∃ s', broadcastAppend suiteW = some s' ∧
      s'.chain.blocks = suiteW.chain.blocks ++ [blkW 1] ∧
      s'.fullChain = suiteW.fullChain)) :=
  have hb : suiteW.fullChain.blocks.get? suiteW.chain.blocks.length = some (blkW 1) := by
    decide
  have htd : suiteW.fullChain.TD (suiteW.chain.blocks.length + 1) = .ok 3 := by decide
  ⟨hb, htd, broadcast_announce_correct suiteW (blkW 1) 3 hb htd⟩

/-- Claim C6: a working chain obtained by `Shorten` has the same fork
ID as the full reference chain (the fork ID depends only on the genesis
hash and the chain configuration's checkpoints, both preserved by
truncation), so every Status the harness builds from the working chain
— the regular one and the malicious one — carries the full reference
chain's fork ID even while head and TD come from the truncated view. -/
theorem status_forkid_full_chain (full w : Chain) (k : Nat)
    (h : full.Shorten k = .ok w) :
    w.ForkID = full.ForkID ∧
    (∀ v st, statusFromChain w v = some st → st.forkID = full.ForkID) ∧
    (∀ v st, maliciousStatus w v = some st → st.forkID = full.ForkID) := by
  obtain ⟨hk, hkl, rfl⟩ := Shorten_ok_inv full k w h
  have hfid : (⟨full.blocks.take k, full.chainConfig⟩ : Chain).ForkID = full.ForkID := by
    unfold Chain.ForkID Chain.genesisHash
    rw [head?_take_of_pos _ _ hk]
  refine ⟨hfid, ?_, ?_⟩
  · intro v st hst
    unfold statusFromChain at hst
    split at hst
    · cases hst
      exact hfid
    · cases hst
  · intro v st hst
    unfold maliciousStatus at hst
    split at hst
    · cases hst
      exact hfid
    · cases hst

/-- Witness for C6: fork IDs evaluated on the concrete two-block full
chain truncated to one block. -/
theorem status_forkid_full_chain_witness :
    fullW.Shorten 1 = .ok shortW ∧
    (shortW.ForkID = fullW.ForkID ∧
    (∀ v st, statusFromChain shortW v = some st → st.forkID = fullW.ForkID) ∧
    (∀ v st, maliciousStatus shortW v = some st → st.forkID = fullW.ForkID)) :=
  have h : fullW.Shorten 1 = .ok shortW := by decide
  ⟨h, status_forkid_full_chain fullW shortW 1 h⟩

/-- Claim C9: every working chain reachable from the full reference
chain — the initial `Shorten` truncation followed by any number of
successful propagation appends — is a block-for-block prefix of the
full chain, and the append step never modifies the full chain. -/
theorem working_chain_prefix_invariant (full w : Chain)
    (h : WorkingReachable full w) :
    (∀ i, i < w.blocks.length → w.blocks.get? i = full.blocks.get? i) ∧
    w.blocks.length ≤ full.blocks.length ∧
    (∀ s s' : SuiteState, broadcastAppend s = some s' → s'.fullChain = s.fullChain) := by
  have hfull : ∀ s s' : SuiteState, broadcastAppend s = some s' → s'.fullChain = s.fullChain := by
    intro s s' hs
    unfold broadcastAppend at hs
    cases hget : s.fullChain.blocks.get? s.chain.blocks.length <;> rw [hget] at hs
    · cases hs
    · cases hs
      rfl
  induction h with
  | init k w hk =>
    obtain ⟨h1, h2, rfl⟩ := Shorten_ok_inv full k w hk
    refine ⟨?_, ?_, hfull⟩
    · intro i hi
      simp only [List.length_take] at hi
      exact List.get?_take (by omega)
    · simp only [List.length_take]
      omega
  | step w s' hw happ ih =>
    obtain ⟨ihp, ihl, -⟩ := ih
    unfold broadcastAppend at happ
    cases hget : full.blocks.get? w.blocks.length <;>
      simp only [SuiteState.fullChain, SuiteState.chain] at happ <;>
      rw [hget] at happ
    · cases happ
    · next b =>
      cases happ
      have hlt : w.blocks.length < full.blocks.length := by
        obtain ⟨hl, -⟩ := List.get?_eq_some.mp hget
        exact hl
      refine ⟨?_, ?_, hfull⟩
      · intro i hi
        simp only [List.length_append, List.length_cons, List.length_nil] at hi
        rcases Nat.lt_or_ge i w.blocks.length with hlt2 | hge
        · rw [List.get?_append hlt2]
          exact ihp i hlt2
        · have hie : i = w.blocks.length := by omega
          subst hie
          rw [List.get?_concat_length]
          exact hget.symm
      · simp only [List.length_append, List.length_cons, List.length_nil]
        omega

/-- Witness for C9: the invariant evaluated after constructing the
working chain by `Shorten 1` from the concrete two-block full chain
and appending one propagated block. -/
theorem working_chain_prefix_invariant_witness :
    WorkingReachable fullW fullW ∧
    ((∀ i, i < fullW.blocks.length → fullW.blocks.get? i = fullW.blocks.get? i) ∧
    fullW.blocks.length ≤ fullW.blocks.length ∧
    (∀ s s' : SuiteState, broadcastAppend s = some s' → s'.fullChain = s.fullChain)) :=
  have h0 : WorkingReachable fullW shortW := .init 1 shortW (by decide)
  have h : WorkingReachable fullW fullW :=
    WorkingReachable.step shortW ⟨fullW, fullW⟩ h0 (by decide)
  ⟨h, working_chain_prefix_invariant fullW fullW h⟩

end AceTest
